import Mathlib

/-!
Verification development for the resume-editor engine of the
AI_Resume_Generator extension (popup script).

The editing engine manipulates JSON-shaped data: the in-memory document
`currentEditingData` is a JavaScript object produced by JSON parsing, and
the editor renders/parses sections of it.  We embed the JavaScript value
space shallowly: `Json` models JSON values (JS `null` included), and
`Option Json` models a possibly-`undefined` JS value (`none` = `undefined`).
-/

namespace ResumeEditor

/-- JSON values as handled by the popup script.  JS numbers are embedded as
integers: no code path of the editor computes on numeric payloads, and the
JSON number grammar is restricted accordingly in `jsonParse`. -/
inductive Json where
  | null : Json
  | bool : Bool → Json
  | num : Int → Json
  | str : String → Json
  | arr : List Json → Json
  | obj : List (String × Json) → Json

mutual

def decEqJson : (a b : Json) → Decidable (a = b)
  | .null, .null => isTrue rfl
  | .bool a, .bool b =>
      match decEq a b with
      | isTrue h => isTrue (h ▸ rfl)
      | isFalse h => isFalse (fun hh => h (Json.bool.inj hh))
  | .num a, .num b =>
      match decEq a b with
      | isTrue h => isTrue (h ▸ rfl)
      | isFalse h => isFalse (fun hh => h (Json.num.inj hh))
  | .str a, .str b =>
      match decEq a b with
      | isTrue h => isTrue (h ▸ rfl)
      | isFalse h => isFalse (fun hh => h (Json.str.inj hh))
  | .arr a, .arr b =>
      match decEqJsonList a b with
      | isTrue h => isTrue (h ▸ rfl)
      | isFalse h => isFalse (fun hh => h (Json.arr.inj hh))
  | .obj a, .obj b =>
      match decEqJsonPairs a b with
      | isTrue h => isTrue (h ▸ rfl)
      | isFalse h => isFalse (fun hh => h (Json.obj.inj hh))
  | .null, .bool _ => isFalse (fun h => Json.noConfusion h)
  | .null, .num _ => isFalse (fun h => Json.noConfusion h)
  | .null, .str _ => isFalse (fun h => Json.noConfusion h)
  | .null, .arr _ => isFalse (fun h => Json.noConfusion h)
  | .null, .obj _ => isFalse (fun h => Json.noConfusion h)
  | .bool _, .null => isFalse (fun h => Json.noConfusion h)
  | .bool _, .num _ => isFalse (fun h => Json.noConfusion h)
  | .bool _, .str _ => isFalse (fun h => Json.noConfusion h)
  | .bool _, .arr _ => isFalse (fun h => Json.noConfusion h)
  | .bool _, .obj _ => isFalse (fun h => Json.noConfusion h)
  | .num _, .null => isFalse (fun h => Json.noConfusion h)
  | .num _, .bool _ => isFalse (fun h => Json.noConfusion h)
  | .num _, .str _ => isFalse (fun h => Json.noConfusion h)
  | .num _, .arr _ => isFalse (fun h => Json.noConfusion h)
  | .num _, .obj _ => isFalse (fun h => Json.noConfusion h)
  | .str _, .null => isFalse (fun h => Json.noConfusion h)
  | .str _, .bool _ => isFalse (fun h => Json.noConfusion h)
  | .str _, .num _ => isFalse (fun h => Json.noConfusion h)
  | .str _, .arr _ => isFalse (fun h => Json.noConfusion h)
  | .str _, .obj _ => isFalse (fun h => Json.noConfusion h)
  | .arr _, .null => isFalse (fun h => Json.noConfusion h)
  | .arr _, .bool _ => isFalse (fun h => Json.noConfusion h)
  | .arr _, .num _ => isFalse (fun h => Json.noConfusion h)
  | .arr _, .str _ => isFalse (fun h => Json.noConfusion h)
  | .arr _, .obj _ => isFalse (fun h => Json.noConfusion h)
  | .obj _, .null => isFalse (fun h => Json.noConfusion h)
  | .obj _, .bool _ => isFalse (fun h => Json.noConfusion h)
  | .obj _, .num _ => isFalse (fun h => Json.noConfusion h)
  | .obj _, .str _ => isFalse (fun h => Json.noConfusion h)
  | .obj _, .arr _ => isFalse (fun h => Json.noConfusion h)

def decEqJsonList : (a b : List Json) → Decidable (a = b)
  | [], [] => isTrue rfl
  | [], _ :: _ => isFalse (fun h => List.noConfusion h)
  | _ :: _, [] => isFalse (fun h => List.noConfusion h)
  | x :: xs, y :: ys =>
      match decEqJson x y with
      | isFalse h => isFalse (fun hh => h (List.cons.inj hh).1)
      | isTrue h1 =>
        match decEqJsonList xs ys with
        | isTrue h2 => isTrue (h1 ▸ h2 ▸ rfl)
        | isFalse h => isFalse (fun hh => h (List.cons.inj hh).2)

def decEqJsonPairs : (a b : List (String × Json)) → Decidable (a = b)
  | [], [] => isTrue rfl
  | [], _ :: _ => isFalse (fun h => List.noConfusion h)
  | _ :: _, [] => isFalse (fun h => List.noConfusion h)
  | (k1, v1) :: xs, (k2, v2) :: ys =>
      match decEq k1 k2 with
      | isFalse h => isFalse (fun hh => h (congrArg Prod.fst (List.cons.inj hh).1))
      | isTrue hk =>
        match decEqJson v1 v2 with
        | isFalse h => isFalse (fun hh => h (congrArg Prod.snd (List.cons.inj hh).1))
        | isTrue hv =>
          match decEqJsonPairs xs ys with
          | isTrue ht => isTrue (hk ▸ hv ▸ ht ▸ rfl)
          | isFalse h => isFalse (fun hh => h (List.cons.inj hh).2)

end

instance : DecidableEq Json := decEqJson

/-- JS truthiness of a JSON value (`null`, `false`, `0` and `""` are falsy;
arrays and objects are always truthy). -/
def truthy : Json → Bool
  | .null => false
  | .bool b => b
  | .num n => n != 0
  | .str s => s != ""
  | .arr _ => true
  | .obj _ => true

/-- JS truthiness of a possibly-`undefined` value (`undefined` is falsy). -/
def truthyOpt : Option Json → Bool
  | none => false
  | some v => truthy v

/-- String coercion of a JSON value as performed by JS template literals.
Inside arrays, `null` elements coerce to the empty string. -/
def jsToString : Json → String
  | .null => "null"
  | .bool b => if b then "true" else "false"
  | .num n => toString n
  | .str s => s
  | .arr l => arrJoin l
  | .obj _ => "[object Object]"
where
  arrJoin : List Json → String
  | [] => ""
  | [Json.null] => ""
  | [x] => jsToString x
  | Json.null :: xs => "," ++ arrJoin xs
  | x :: xs => jsToString x ++ "," ++ arrJoin xs

/-- `${val || ''}`: template rendering of a possibly-`undefined` value with
an empty-string fallback for falsy values. -/
def optToStr (o : Option Json) : String :=
  match o with
  | some v => if truthy v then jsToString v else ""
  | none => ""

/-- First-occurrence lookup in a JS object's property list. -/
def objLookup : List (String × Json) → String → Option Json
  | [], _ => none
  | (k', v) :: rest, k => if k' = k then some v else objLookup rest k

/-- JS property assignment `m[k] = v`: an existing key keeps its position
and is overwritten, a new key is appended. -/
def objSet {α : Type} : List (String × α) → String → α → List (String × α)
  | [], k, v => [(k, v)]
  | (k', v') :: rest, k, v =>
      if k' = k then (k, v) :: rest else (k', v') :: objSet rest k v

/-- Property access `item[k]` on a JSON value (`undefined` on non-objects). -/
def getField : Json → String → Option Json
  | .obj m, k => objLookup m k
  | _, _ => none

/-- `Object.entries(data)` (objects yield their property list, arrays and
strings their indexed elements, primitives nothing). -/
def jsEntries : Json → List (String × Json)
  | .obj m => m
  | .arr l => l.enum.map (fun p => (toString p.1, p.2))
  | .str s => s.data.enum.map (fun p => (toString p.1, Json.str (toString p.2)))
  | _ => []

/-- JS `String.prototype.trim`: strip leading and trailing whitespace.
Defined structurally over the character list so that it evaluates inside
the kernel (Lean's own `String.trim` does not). -/
def jsTrim (s : String) : String :=
  String.mk (((s.data.dropWhile Char.isWhitespace).reverse.dropWhile Char.isWhitespace).reverse)

/-- Left brace character (written via its code point). -/
def lbrace : Char := Char.ofNat 123

/-- Right brace character (written via its code point). -/
def rbrace : Char := Char.ofNat 125

/-- Escaping of one character inside a serialized JSON string. -/
def jsonEscapeChar (c : Char) : String :=
  if c = '\\' then "\\\\"
  else if c = '"' then "\\\""
  else if c = '\n' then "\\n"
  else if c = '\t' then "\\t"
  else if c = '\r' then "\\r"
  else toString c

/-- Escaping of a serialized JSON string body. -/
def jsonEscape (s : String) : String :=
  s.data.foldl (fun acc c => acc ++ jsonEscapeChar c) ""

/-- `JSON.stringify`, used by the editor's fallback branch to show an
unknown section as raw text.  The source passes an indentation argument of
2; the pretty-printing whitespace is not modelled (it is invisible to
`JSON.parse` and to every property verified here). -/
def Json.stringify : Json → String
  | .null => "null"
  | .bool b => if b then "true" else "false"
  | .num n => toString n
  | .str s => "\"" ++ jsonEscape s ++ "\""
  | .arr l => "[" ++ stringifyList l ++ "]"
  | .obj m => toString lbrace ++ stringifyPairs m ++ toString rbrace
where
  stringifyList : List Json → String
  | [] => ""
  | [x] => Json.stringify x
  | x :: xs => Json.stringify x ++ "," ++ stringifyList xs
  stringifyPairs : List (String × Json) → String
  | [] => ""
  | [(k, v)] => "\"" ++ jsonEscape k ++ "\":" ++ Json.stringify v
  | (k, v) :: xs => "\"" ++ jsonEscape k ++ "\":" ++ Json.stringify v ++ "," ++ stringifyPairs xs

/-- JSON whitespace. -/
def isWsChar (c : Char) : Bool :=
  c = ' ' ∨ c = '\t' ∨ c = '\n' ∨ c = '\r'

/-- Skip leading JSON whitespace. -/
def skipWs : List Char → List Char
  | [] => []
  | c :: rest => if isWsChar c then skipWs rest else c :: rest

/-- Consume an expected literal character sequence. -/
def dropLit : List Char → List Char → Option (List Char)
  | [], cs => some cs
  | _ :: _, [] => none
  | p :: ps, c :: cs => if c = p then dropLit ps cs else none

/-- Parse the body of a JSON string (after the opening quote), handling the
single-character escapes.  `\u` escapes are not modelled: no property here
depends on a successful parse of such input. -/
def parseJString : Nat → List Char → Option (String × List Char)
  | 0, _ => none
  | _ + 1, [] => none
  | fuel + 1, c :: rest =>
    if c = '"' then some ("", rest)
    else if c = '\\' then
      match rest with
      | [] => none
      | e :: rest2 =>
        let ec : Option Char :=
          if e = '"' then some '"'
          else if e = '\\' then some '\\'
          else if e = '/' then some '/'
          else if e = 'n' then some '\n'
          else if e = 't' then some '\t'
          else if e = 'r' then some '\r'
          else if e = 'b' then some (Char.ofNat 8)
          else if e = 'f' then some (Char.ofNat 12)
          else none
        match ec with
        | some ch => (parseJString fuel rest2).map (fun p => (toString ch ++ p.1, p.2))
        | none => none
    else (parseJString fuel rest).map (fun p => (toString c ++ p.1, p.2))

/-- Parse a run of decimal digits (at least one). -/
def parseDigits (cs : List Char) : Option (Nat × List Char) :=
  let ds := cs.takeWhile Char.isDigit
  if ds.isEmpty then none
  else some (ds.foldl (fun n c => n * 10 + (c.toNat - 48)) 0, cs.drop ds.length)

mutual

/-- Fuel-driven model of `JSON.parse` on a character stream.  Number syntax
is restricted to (signed) integers: the editor never exercises fractional
payloads, and every property proved below about this parser concerns
rejected input. -/
def parseJsonAux : Nat → List Char → Option (Json × List Char)
  | 0, _ => none
  | fuel + 1, cs =>
    match skipWs cs with
    | [] => none
    | c :: rest =>
      if c = 'n' then (dropLit ['u', 'l', 'l'] rest).map (fun r => (Json.null, r))
      else if c = 't' then (dropLit ['r', 'u', 'e'] rest).map (fun r => (Json.bool true, r))
      else if c = 'f' then (dropLit ['a', 'l', 's', 'e'] rest).map (fun r => (Json.bool false, r))
      else if c = '"' then (parseJString fuel rest).map (fun p => (Json.str p.1, p.2))
      else if c = '-' then
        (parseDigits rest).map (fun p => (Json.num (-(p.1 : Int)), p.2))
      else if c.isDigit then
        (parseDigits (c :: rest)).map (fun p => (Json.num (p.1 : Int), p.2))
      else if c = '[' then
        match skipWs rest with
        | ']' :: r => some (Json.arr [], r)
        | r => (parseArrayItems fuel r).map (fun p => (Json.arr p.1, p.2))
      else if c = lbrace then
        match skipWs rest with
        | r =>
          if r.head? = some rbrace then some (Json.obj [], r.tail)
          else (parseObjItems fuel r).map (fun p => (Json.obj p.1, p.2))
      else none

/-- Parse one or more comma-separated array items up to `]`. -/
def parseArrayItems : Nat → List Char → Option (List Json × List Char)
  | 0, _ => none
  | fuel + 1, cs =>
    match parseJsonAux fuel cs with
    | none => none
    | some (v, rest) =>
      match skipWs rest with
      | ',' :: r => (parseArrayItems fuel r).map (fun p => (v :: p.1, p.2))
      | ']' :: r => some ([v], r)
      | _ => none

/-- Parse one or more comma-separated object members up to the closing brace. -/
def parseObjItems : Nat → List Char → Option (List (String × Json) × List Char)
  | 0, _ => none
  | fuel + 1, cs =>
    match skipWs cs with
    | '"' :: r =>
      match parseJString fuel r with
      | none => none
      | some (k, rest) =>
        match skipWs rest with
        | ':' :: r2 =>
          match parseJsonAux fuel r2 with
          | none => none
          | some (v, rest2) =>
            match skipWs rest2 with
            | ',' :: r3 => (parseObjItems fuel r3).map (fun p => ((k, v) :: p.1, p.2))
            | c :: r3 => if c = rbrace then some ([(k, v)], r3) else none
            | [] => none
        | _ => none
    | _ => none

end

/-- `JSON.parse`: the whole input (modulo surrounding whitespace) must be
one JSON value, otherwise the parse fails (the JS function throws). -/
def jsonParse (s : String) : Option Json :=
  match parseJsonAux (s.length + 1) s.data with
  | some (v, rest) => if (skipWs rest).isEmpty then some v else none
  | none => none

/-!
## The editable view

`renderEditor` builds DOM inside `formContainer`; `parseEditor` reads it
back through `getElementById`/`querySelector` calls.  The view is embedded
as the structured content of the container: each constructor records the
editable values the corresponding render branch creates.  HTML-attribute
serialization is not modelled (the DOM stores the value strings verbatim;
`createBulletRow`'s `&quot;` escaping round-trips through the textarea).
-/

/-- The header inputs a list-section item block may carry.  A field is
`none` when the corresponding `<input>` element is not present in the
block (`querySelector` returns `null`). -/
structure ItemFields where
  company : Option String := none
  role : Option String := none
  location : Option String := none
  dates : Option String := none
  name : Option String := none
  tech : Option String := none
  org : Option String := none
deriving DecidableEq

/-- One `.item-block` element.  Skills category blocks and
experience/projects/leadership item blocks share this CSS class in the
source, so both live in the same list and are told apart by which inner
elements a `querySelector` finds. -/
inductive Block where
  | skill (category : String) (values : String)
  | item (fields : ItemFields) (bullets : List String)
deriving DecidableEq

/-- `block.querySelector('.skill-category-input')`. -/
def Block.skillCatInput : Block → Option String
  | .skill c _ => some c
  | .item _ _ => none

/-- `block.querySelector('.skill-values-input')`. -/
def Block.skillValsInput : Block → Option String
  | .skill _ v => some v
  | .item _ _ => none

/-- `block.querySelector('.item-company')`. -/
def Block.companyInput : Block → Option String
  | .item f _ => f.company
  | .skill _ _ => none

/-- `block.querySelector('.item-role')`. -/
def Block.roleInput : Block → Option String
  | .item f _ => f.role
  | .skill _ _ => none

/-- `block.querySelector('.item-location')`. -/
def Block.locationInput : Block → Option String
  | .item f _ => f.location
  | .skill _ _ => none

/-- `block.querySelector('.item-dates')`. -/
def Block.datesInput : Block → Option String
  | .item f _ => f.dates
  | .skill _ _ => none

/-- `block.querySelector('.item-name')`. -/
def Block.nameInput : Block → Option String
  | .item f _ => f.name
  | .skill _ _ => none

/-- `block.querySelector('.item-tech')`. -/
def Block.techInput : Block → Option String
  | .item f _ => f.tech
  | .skill _ _ => none

/-- `block.querySelector('.item-org')`. -/
def Block.orgInput : Block → Option String
  | .item f _ => f.org
  | .skill _ _ => none

/-- `block.querySelectorAll('.bullet-input')`, in document order. -/
def Block.bulletInputs : Block → List String
  | .item _ bs => bs
  | .skill _ _ => []

/-- Content of `formContainer` after a render. -/
inductive FormState where
  | summaryForm (text : String)
  | contactForm (inputs : List (String × String))
  | blocksForm (blocks : List Block)
  | rawForm (text : String)
deriving DecidableEq

/-- `document.getElementById('edit_summary_text')` (present exactly when
the summary branch rendered last). -/
def summaryTextOf : FormState → Option String
  | .summaryForm t => some t
  | _ => none

/-- `formContainer.querySelectorAll('.contact-input')` as
(`data-key`, value) pairs. -/
def contactInputsOf : FormState → List (String × String)
  | .contactForm inputs => inputs
  | _ => []

/-- `formContainer.querySelectorAll('.item-block')`. -/
def blocksOf : FormState → List Block
  | .blocksForm bs => bs
  | _ => []

/-- `document.getElementById('edit_raw_json')`. -/
def rawTextOf : FormState → Option String
  | .rawForm t => some t
  | _ => none

/-!
## SectionRenderer (`renderEditor` / `renderItemBlock` / `createBulletRow`)
-/

/-- `item.a || item.b || ""` followed by template-literal rendering: the
first truthy property among `keys`, coerced to a string, else `""`. -/
def pick (item : Json) (keys : List String) : String :=
  match keys with
  | [] => ""
  | k :: rest =>
    match getField item k with
    | some v => if truthy v then jsToString v else pick item rest
    | none => pick item rest

/-- The value shown by one bullet row (`createBulletRow`): falsy bullet
values render as the empty string. -/
def renderBulletRow (b : Json) : String :=
  if truthy b then jsToString b else ""

/-- `renderItemBlock(container, item, section)`: the experience branch
reads `role`/`title` and `dates`/`date` aliases, the leadership branch
reads only the canonical `organization`/`role`/`location`/`dates` keys,
and the remaining (projects) branch reads `name`/`tech` and the
`dates`/`date` aliases.  Bullet rows are created only when `item.bullets`
is an array. -/
def renderItemBlock (sect : String) (item : Json) : Block :=
  let bullets : List String :=
    match getField item "bullets" with
    | some (Json.arr l) => l.map renderBulletRow
    | _ => []
  if sect = "experience" then
    .item { company := some (pick item ["company"])
            role := some (pick item ["role", "title"])
            location := some (pick item ["location"])
            dates := some (pick item ["dates", "date"]) } bullets
  else if sect = "leadership" then
    .item { org := some (pick item ["organization"])
            role := some (pick item ["role"])
            location := some (pick item ["location"])
            dates := some (pick item ["dates"]) } bullets
  else
    .item { name := some (pick item ["name"])
            tech := some (pick item ["tech"])
            dates := some (pick item ["dates", "date"]) } bullets

/-- `typeof data` is `'object'` (JS arrays and `null` included);
`undefined` is not. -/
def isTypeofObject : Option Json → Bool
  | some (.obj _) => true
  | some (.arr _) => true
  | some .null => true
  | _ => false

/-- The six canonical contact field keys, in the order the form renders
them. -/
def contactFieldKeys : List String :=
  ["location", "email", "phone", "linkedin_url", "portfolio_url", "github"]

/-- Value shown in one contact input: strict key lookup, then the
`linkedin`→`linkedin_url` / `portfolio`→`portfolio_url` legacy fallbacks,
then the empty string. -/
def renderContactField (d : Json) (key : String) : String :=
  let v0 := getField d key
  let v1 := if key = "linkedin_url" ∧ ¬ truthyOpt v0 then getField d "linkedin" else v0
  let v2 := if key = "portfolio_url" ∧ ¬ truthyOpt v1 then getField d "portfolio" else v1
  optToStr v2

/-- The three list-bearing known sections share one render/parse branch. -/
def isListSection (s : String) : Bool :=
  s = "experience" ∨ s = "projects" ∨ s = "leadership"

/-- `renderEditor(section, data)`: pure construction of the form contents.
The `data` argument is `currentEditingData[section]` (possibly
`undefined`).  Two JS crash paths are not modelled as crashes: property
access on a `null` contact value and `forEach` on a truthy non-array list
value would throw in JS; here they produce an empty form, which no claim
exercises. -/
def renderEditor (sect : String) (data : Option Json) : FormState :=
  if sect = "summary" then
    .summaryForm (optToStr data)
  else if sect = "contact" then
    let d : Json :=
      if isTypeofObject data then data.getD Json.null
      else .obj [("location", if truthyOpt data then data.getD Json.null else .str "")]
    .contactForm (contactFieldKeys.map (fun k => (k, renderContactField d k)))
  else if sect = "skills" then
    let d : Json := if truthyOpt data then data.getD Json.null else .obj []
    .blocksForm ((jsEntries d).map (fun p => .skill p.1 (jsToString p.2)))
  else if isListSection sect then
    let l : List Json :=
      match data with
      | some (.arr l) => l
      | _ => []
    .blocksForm (l.map (renderItemBlock sect))
  else
    .rawForm (match data with
              | some v => v.stringify
              | none => "undefined")

/-!
## SectionParser (`parseEditor`)
-/

/-- `el ? el.value : ""`. -/
def getVal (o : Option String) : String := o.getD ""

/-- One parsed entry of a list section: the experience branch writes
`company`/`role`/`dates`/`location`, the leadership branch
`organization`/`role`/`dates`/`location`, the remaining (projects) branch
`name`/`tech`/`dates`; all write `bullets` filtered of blank strings.
Key order matches the JS property-insertion order. -/
def parseItemBlock (sect : String) (b : Block) : Json :=
  let bullets : List Json := (b.bulletInputs.filter (fun t => jsTrim t ≠ "")).map .str
  if sect = "experience" then
    .obj [("company", .str (getVal b.companyInput)),
          ("role", .str (getVal b.roleInput)),
          ("dates", .str (getVal b.datesInput)),
          ("location", .str (getVal b.locationInput)),
          ("bullets", .arr bullets)]
  else if sect = "leadership" then
    .obj [("organization", .str (getVal b.orgInput)),
          ("role", .str (getVal b.roleInput)),
          ("dates", .str (getVal b.datesInput)),
          ("location", .str (getVal b.locationInput)),
          ("bullets", .arr bullets)]
  else
    .obj [("name", .str (getVal b.nameInput)),
          ("tech", .str (getVal b.techInput)),
          ("dates", .str (getVal b.datesInput)),
          ("bullets", .arr bullets)]

/-- A document value: `none` models JS `undefined` (absent key). -/
abbrev JsVal := Option Json

/-- `currentEditingData[k]` on the document's property list. -/
def docGet (doc : List (String × JsVal)) (k : String) : JsVal :=
  match doc with
  | [] => none
  | (k', v) :: rest => if k' = k then v else docGet rest k

/-- Body of the contact parse loop: a trimmed non-empty input is stored
under its `data-key`, an empty one is skipped. -/
def contactFoldStep (m : List (String × Json)) (p : String × String) :
    List (String × Json) :=
  if jsTrim p.2 ≠ "" then objSet m p.1 (Json.str (jsTrim p.2)) else m

/-- Body of the skills parse loop: a block contributes
`newSkills[category] = values` exactly when both of its inputs exist. -/
def skillsFoldStep (m : List (String × Json)) (b : Block) : List (String × Json) :=
  match b.skillCatInput, b.skillValsInput with
  | some c, some v => objSet m c (Json.str v)
  | _, _ => m

/-- `parseEditor(section)`: reads the current form contents back into a
section value.  The return type is a JS value: `some Json.null` is the
JS `null` write-skip sentinel (returned when `formContainer` is absent,
i.e. `form = none`), and `none` is JS `undefined` (reachable only through
the fallback branch returning an absent `currentEditingData[section]`).
The `doc` argument stands for `currentEditingData`, read only by the
fallback branch. -/
def parseEditor (doc : List (String × JsVal)) (sect : String)
    (form : Option FormState) : JsVal :=
  match form with
  | none => some Json.null
  | some fs =>
    if sect = "summary" then
      some (.str (getVal (summaryTextOf fs)))
    else if sect = "contact" then
      some (.obj ((contactInputsOf fs).foldl contactFoldStep []))
    else if sect = "skills" then
      some (.obj ((blocksOf fs).foldl skillsFoldStep []))
    else if isListSection sect then
      some (.arr ((blocksOf fs).map (parseItemBlock sect)))
    else
      match rawTextOf fs with
      | some raw =>
        match jsonParse raw with
        | some v => some v
        | none => docGet doc sect
      | none => docGet doc sect

/-!
## EditSession state and handlers

The popup's mutable state relevant to the editor: `currentEditingData`,
`previousSection`, the select control, the form container, the
`chrome.storage.local` keys the editor reads/writes, `currentViewUrl`, the
two visibility flags and the status line.  `alert(...)` calls are recorded
in an `alerts` log.  Handlers are straight-line and synchronous between
their suspension points, so each is one step function.
-/

structure EditorState where
  /-- `currentEditingData` (`none` = JS `null`, not yet loaded). -/
  doc : Option (List (String × JsVal))
  /-- content of `formContainer`; `none` models an absent container. -/
  form : Option FormState
  /-- `previousSection` tracker (`none` = JS `null`). -/
  prevSection : Option String
  /-- `sectionSelect.value`. -/
  activeSelect : String
  /-- the `currentViewUrl` variable (artifact reference in use). -/
  currentViewUrl : String
  /-- storage key `lastResumeData` (persisted snapshot). -/
  storedResume : Option (List (String × JsVal))
  /-- storage key `lastViewUrl` (persisted artifact reference). -/
  storedViewUrl : Option String
  /-- storage key `lastStatus`. -/
  storedStatus : Option String
  /-- storage key `lastCompany` (artifact identity). -/
  storedCompany : Option String
  /-- `statusDiv.textContent`. -/
  statusText : String
  /-- `editorUI` visibility. -/
  editorVisible : Bool
  /-- `actionsDiv` visibility. -/
  actionsVisible : Bool
  /-- chronological log of `alert(...)` messages shown to the user. -/
  alerts : List String
deriving DecidableEq

/-- JS strict comparison `x !== null` on a parse result (where `none` is
`undefined`, which is **not** `null`). -/
def isNullSentinel : JsVal → Bool
  | some Json.null => true
  | _ => false

/-- The `sectionSelect` `change` handler: with a loaded document, a truthy
`previousSection` is parsed from the still-current view and, when the
result is not the `null` sentinel, written into the document; then the
newly selected section is rendered (against the updated document) and the
tracker moves to it. -/
def sectionSelectChange (st : EditorState) (b : String) : EditorState :=
  let st := { st with activeSelect := b }
  match st.doc with
  | none => st
  | some doc =>
    let doc' :=
      match st.prevSection with
      | none => doc
      | some a =>
        if a = "" then doc
        else
          let saved := parseEditor doc a st.form
          if isNullSentinel saved then doc else objSet doc a saved
    { st with doc := some doc',
              form := st.form.map (fun _ => renderEditor b (docGet doc' b)),
              prevSection := some b }

/-- `JSON.parse(JSON.stringify(doc))` on the in-memory document: under the
immutable embedding a structural deep copy is the identity, except that
keys holding `undefined` are dropped by `JSON.stringify`. -/
def deepCopyDoc (doc : List (String × JsVal)) : List (String × JsVal) :=
  doc.filterMap (fun p => p.2.map (fun v => (p.1, some v)))

/-- Shared tail of the `editBtn` handler once a document is available:
show the editor, hide the actions, dispatch a `change` event on the
(unchanged) select control, then initialize the tracker (the source does
the last step through a 100 ms timeout; it is modelled as running after
the synchronously dispatched change handler, which is the order the JS
event loop guarantees). -/
def editOpenShow (st : EditorState) : EditorState :=
  let st := { st with editorVisible := true, actionsVisible := false }
  let st := sectionSelectChange st st.activeSelect
  { st with prevSection := some st.activeSelect }

/-- The `editBtn` click handler: reuse `currentEditingData` if already
loaded, otherwise deep-copy the persisted snapshot; with no snapshot,
alert and keep everything unchanged. -/
def editBtnClick (st : EditorState) : EditorState :=
  match st.doc with
  | some _ => editOpenShow st
  | none =>
    match st.storedResume with
    | some snap => editOpenShow { st with doc := some (deepCopyDoc snap) }
    | none => { st with alerts := st.alerts ++ ["No resume data found to edit."] }

/-- The `cancelEditBtn` click handler: hide the editor, show the actions.
Nothing else is touched. -/
def cancelEditClick (st : EditorState) : EditorState :=
  { st with editorVisible := false, actionsVisible := true }

/-- Outcome of the regeneration request as observed by the handler:
`netFail` covers a rejected fetch, a non-`ok` HTTP response and a body
that fails to parse (all reach the `catch` block with a message); `ok`
carries the parsed response body's `status` and `view_url` fields. -/
inductive RegenResponse where
  | netFail (msg : String)
  | ok (status : String) (viewUrl : String)
deriving DecidableEq

/-- The `saveRegenBtn` click handler, parameterized by the response the
regeneration request produced.  The active section is committed into the
document (same non-null rule as navigation) before the request; on an
`ok` response with `status = "success"` the three storage keys
`lastViewUrl`, `lastResumeData`, `lastStatus` are written and the editor
closes; on `netFail` an alert is shown; on any other `status` nothing
further happens. -/
def saveRegenClick (st : EditorState) (resp : RegenResponse) : EditorState :=
  match st.doc with
  | none => st
  | some doc =>
    let s := st.activeSelect
    let saved := parseEditor doc s st.form
    let doc' := if isNullSentinel saved then doc else objSet doc s saved
    let st := { st with doc := some doc', statusText := "Regenerating PDF..." }
    match resp with
    | .netFail msg => { st with alerts := st.alerts ++ ["Error: " ++ msg] }
    | .ok status url =>
      if status = "success" then
        { st with currentViewUrl := url,
                  storedViewUrl := some url,
                  storedResume := some doc',
                  storedStatus := some "Resume updated.",
                  statusText := "Resume updated successfully!",
                  actionsVisible := true,
                  editorVisible := false }
      else st

/-!
## Canonical section values (data model of the spec, §3)

A canonical value of a section's shape, used to state the render→parse
round trip.  JS object key order is not semantically significant for the
editor (every read is by key), so each canonical object is embedded as a
record; `toJson` lists its keys in the parser's insertion order, making
plain `Json` equality coincide with JS object equality on these values.
-/

/-- Canonical `contact` value: the six known field keys, each possibly
absent. -/
structure ContactVal where
  location : Option String := none
  email : Option String := none
  phone : Option String := none
  linkedin_url : Option String := none
  portfolio_url : Option String := none
  github : Option String := none
deriving DecidableEq

/-- One optional object member. -/
def optPair (k : String) : Option String → List (String × Json)
  | some v => [(k, Json.str v)]
  | none => []

/-- Canonical contact value as a JS object (form field order). -/
def ContactVal.toJson (c : ContactVal) : Json :=
  .obj (optPair "location" c.location ++ optPair "email" c.email ++
        optPair "phone" c.phone ++ optPair "linkedin_url" c.linkedin_url ++
        optPair "portfolio_url" c.portfolio_url ++ optPair "github" c.github)

/-- Canonical `experience` entry: `{company, role, location, dates, bullets}`. -/
structure ExpEntryV where
  company : String
  role : String
  location : String
  dates : String
  bullets : List String
deriving DecidableEq

/-- Canonical experience entry as a JS object (parser key order). -/
def ExpEntryV.toJson (e : ExpEntryV) : Json :=
  .obj [("company", .str e.company), ("role", .str e.role),
        ("dates", .str e.dates), ("location", .str e.location),
        ("bullets", .arr (e.bullets.map .str))]

/-- Canonical `projects` entry: `{name, tech, dates, bullets}`. -/
structure ProjEntryV where
  name : String
  tech : String
  dates : String
  bullets : List String
deriving DecidableEq

/-- Canonical projects entry as a JS object (parser key order). -/
def ProjEntryV.toJson (e : ProjEntryV) : Json :=
  .obj [("name", .str e.name), ("tech", .str e.tech),
        ("dates", .str e.dates), ("bullets", .arr (e.bullets.map .str))]

/-- Canonical `leadership` entry: `{organization, role, location, dates, bullets}`. -/
structure LeadEntryV where
  organization : String
  role : String
  location : String
  dates : String
  bullets : List String
deriving DecidableEq

/-- Canonical leadership entry as a JS object (parser key order). -/
def LeadEntryV.toJson (e : LeadEntryV) : Json :=
  .obj [("organization", .str e.organization), ("role", .str e.role),
        ("dates", .str e.dates), ("location", .str e.location),
        ("bullets", .arr (e.bullets.map .str))]

/-- A canonical section value of one of the six known section types. -/
inductive CanonVal where
  | summary (s : String)
  | contact (c : ContactVal)
  | skills (m : List (String × String))
  | experience (es : List ExpEntryV)
  | projects (ps : List ProjEntryV)
  | leadership (ls : List LeadEntryV)
deriving DecidableEq

/-- The section type a canonical value belongs to. -/
def CanonVal.sectionOf : CanonVal → String
  | .summary _ => "summary"
  | .contact _ => "contact"
  | .skills _ => "skills"
  | .experience _ => "experience"
  | .projects _ => "projects"
  | .leadership _ => "leadership"

/-- A canonical value as a JS value. -/
def CanonVal.toJson : CanonVal → Json
  | .summary s => .str s
  | .contact c => c.toJson
  | .skills m => .obj (m.map (fun p => (p.1, Json.str p.2)))
  | .experience es => .arr (es.map ExpEntryV.toJson)
  | .projects ps => .arr (ps.map ProjEntryV.toJson)
  | .leadership ls => .arr (ls.map LeadEntryV.toJson)

/-- Well-formedness: a `skills` value is a JS object, whose category keys
are necessarily distinct.  (The other shapes need no side condition.) -/
def CanonVal.wf : CanonVal → Prop
  | .skills m => (m.map Prod.fst).Nodup
  | _ => True

/-- Drop a contact field whose value is empty after trimming, keeping the
surviving value **verbatim** (the deviation exactly as claim C1 words it). -/
def dropEmptyVerbatim (o : Option String) : Option String :=
  o.bind (fun v => if jsTrim v = "" then none else some v)

/-- Drop a contact field whose value is empty after trimming and **trim**
the surviving value (what `parseEditor` actually does). -/
def dropEmptyTrim (o : Option String) : Option String :=
  o.bind (fun v => if jsTrim v = "" then none else some (jsTrim v))

/-- Claim C1's two stated deviations applied to a canonical value:
empty-after-trim contact fields are omitted (values otherwise untouched)
and blank bullets are removed. -/
def CanonVal.scrubClaim : CanonVal → CanonVal
  | .summary s => .summary s
  | .contact c => .contact { location := dropEmptyVerbatim c.location,
                             email := dropEmptyVerbatim c.email,
                             phone := dropEmptyVerbatim c.phone,
                             linkedin_url := dropEmptyVerbatim c.linkedin_url,
                             portfolio_url := dropEmptyVerbatim c.portfolio_url,
                             github := dropEmptyVerbatim c.github }
  | .skills m => .skills m
  | .experience es => .experience (es.map (fun e =>
      { e with bullets := e.bullets.filter (fun t => jsTrim t ≠ "") }))
  | .projects ps => .projects (ps.map (fun e =>
      { e with bullets := e.bullets.filter (fun t => jsTrim t ≠ "") }))
  | .leadership ls => .leadership (ls.map (fun e =>
      { e with bullets := e.bullets.filter (fun t => jsTrim t ≠ "") }))

/-- The code's actual round-trip residue: like `scrubClaim`, but surviving
contact field values are additionally trimmed. -/
def CanonVal.scrubCode : CanonVal → CanonVal
  | .summary s => .summary s
  | .contact c => .contact { location := dropEmptyTrim c.location,
                             email := dropEmptyTrim c.email,
                             phone := dropEmptyTrim c.phone,
                             linkedin_url := dropEmptyTrim c.linkedin_url,
                             portfolio_url := dropEmptyTrim c.portfolio_url,
                             github := dropEmptyTrim c.github }
  | v => v.scrubClaim

/-!
## Supporting lemmas
-/

theorem optToStr_str (s : String) : optToStr (some (Json.str s)) = s := by
  by_cases h : s = "" <;> simp [optToStr, truthy, jsToString, h]

theorem optToStr_mapStr (o : Option String) : optToStr (o.map Json.str) = o.getD "" := by
  cases o with
  | none => rfl
  | some v => simpa using optToStr_str v

theorem optToStr_falsy (o : Option Json) (h : truthyOpt o = false) : optToStr o = "" := by
  cases o with
  | none => rfl
  | some v => simp [optToStr, truthyOpt] at h ⊢; simp [h]

theorem renderBulletRow_str (s : String) : renderBulletRow (Json.str s) = s := by
  by_cases h : s = "" <;> simp [renderBulletRow, truthy, jsToString, h]

theorem if_empty_self (s : String) : (if s = "" then "" else s) = s := by
  by_cases h : s = "" <;> simp [h]

theorem pick_str_found (item : Json) (k s : String) (rest : List String)
    (h : getField item k = some (Json.str s)) :
    pick item (k :: rest) = if s = "" then pick item rest else s := by
  by_cases hs : s = "" <;> simp [pick, h, truthy, jsToString, hs]

theorem pick_miss (item : Json) (k : String) (rest : List String)
    (h : getField item k = none) : pick item (k :: rest) = pick item rest := by
  simp [pick, h]

theorem objLookup_objSet (m : List (String × Json)) (k q : String) (v : Json) :
    objLookup (objSet m k v) q = if k = q then some v else objLookup m q := by
  induction m with
  | nil => simp [objSet, objLookup]
  | cons p rest ih =>
    obtain ⟨k', v'⟩ := p
    by_cases h : k' = k
    · subst h
      by_cases hq : k' = q <;> simp [objSet, objLookup, hq]
    · by_cases hq : k' = q
      · subst hq
        have : ¬ (k = k') := fun hh => h hh.symm
        simp [objSet, objLookup, h, this]
      · simp [objSet, objLookup, h, hq, ih]

theorem docGet_objSet (doc : List (String × JsVal)) (k q : String) (v : JsVal) :
    docGet (objSet doc k v) q = if k = q then v else docGet doc q := by
  induction doc with
  | nil =>
    by_cases hq : k = q <;> simp [objSet, docGet, hq]
  | cons p rest ih =>
    obtain ⟨k', v'⟩ := p
    by_cases h : k' = k
    · subst h
      by_cases hq : k' = q <;> simp [objSet, docGet, hq]
    · by_cases hq : k' = q
      · subst hq
        have : ¬ (k = k') := fun hh => h hh.symm
        simp [objSet, docGet, h, this]
      · simp [objSet, docGet, h, hq, ih]

theorem map_fst_objSet {α : Type} (m : List (String × α)) (k : String) (v : α) :
    (objSet m k v).map Prod.fst =
      if k ∈ m.map Prod.fst then m.map Prod.fst else m.map Prod.fst ++ [k] := by
  induction m with
  | nil => simp [objSet]
  | cons p rest ih =>
    obtain ⟨k', v'⟩ := p
    by_cases h : k' = k
    · subst h; simp [objSet]
    · have : ¬ (k = k') := fun hh => h hh.symm
      by_cases hmem : k ∈ rest.map Prod.fst <;>
        simp [objSet, h, this, hmem, ih]

theorem objSet_append {α : Type} (m : List (String × α)) (k : String) (v : α)
    (h : ∀ p ∈ m, p.1 ≠ k) : objSet m k v = m ++ [(k, v)] := by
  induction m with
  | nil => rfl
  | cons p rest ih =>
    obtain ⟨k', v'⟩ := p
    have hp : k' ≠ k := h (k', v') (List.mem_cons_self _ _)
    simp only [objSet, if_neg hp, List.cons_append, List.cons.injEq, true_and]
    exact ih (fun q hq => h q (List.mem_cons_of_mem _ hq))

theorem foldl_objSet_eq_append {α : Type} (pairs : List (String × α)) (acc : List (String × α))
    (h : ((acc ++ pairs).map Prod.fst).Nodup) :
    pairs.foldl (fun m p => objSet m p.1 p.2) acc = acc ++ pairs := by
  induction pairs generalizing acc with
  | nil => simp
  | cons p rest ih =>
    have h' : ((acc.map Prod.fst) ++ (p.1 :: rest.map Prod.fst)).Nodup := by simpa using h
    have hnd := List.nodup_append.mp h'
    have hmem : p.1 ∉ acc.map Prod.fst :=
      fun hin => hnd.2.2 hin (List.mem_cons_self _ _)
    have hstep : objSet acc p.1 p.2 = acc ++ [p] :=
      objSet_append acc p.1 p.2
        (fun q hq heq => hmem (heq ▸ List.mem_map_of_mem Prod.fst hq))
    have hre : (((acc ++ [p]) ++ rest).map Prod.fst).Nodup := by
      have hassoc : (acc ++ [p]) ++ rest = acc ++ p :: rest := by simp
      rw [hassoc]; exact h
    calc (p :: rest).foldl (fun m q => objSet m q.1 q.2) acc
        = rest.foldl (fun m q => objSet m q.1 q.2) (objSet acc p.1 p.2) := rfl
      _ = rest.foldl (fun m q => objSet m q.1 q.2) (acc ++ [p]) := by rw [hstep]
      _ = (acc ++ [p]) ++ rest := ih _ hre
      _ = acc ++ p :: rest := by simp

theorem optToStr_none : optToStr none = "" := rfl

/-- The pair the contact-parse fold keeps for one input (if any). -/
def contactKeep (p : String × String) : Option (String × Json) :=
  if jsTrim p.2 ≠ "" then some (p.1, Json.str (jsTrim p.2)) else none

theorem foldl_contact_eq_filterMap (inputs : List (String × String))
    (acc : List (String × Json)) :
    inputs.foldl contactFoldStep acc
    = (inputs.filterMap contactKeep).foldl (fun m p => objSet m p.1 p.2) acc := by
  induction inputs generalizing acc with
  | nil => rfl
  | cons p rest ih =>
    rw [List.foldl_cons, List.filterMap_cons]
    by_cases h : jsTrim p.2 = ""
    · rw [show contactFoldStep acc p = acc from by simp [contactFoldStep, h],
          show contactKeep p = none from by simp [contactKeep, h]]
      exact ih acc
    · rw [show contactFoldStep acc p = objSet acc p.1 (Json.str (jsTrim p.2)) from by
            simp [contactFoldStep, h],
          show contactKeep p = some (p.1, Json.str (jsTrim p.2)) from by simp [contactKeep, h]]
      exact ih _

theorem map_fst_filterMap_contactKeep (inputs : List (String × String)) :
    List.Sublist ((inputs.filterMap contactKeep).map Prod.fst) (inputs.map Prod.fst) := by
  induction inputs with
  | nil => simp
  | cons p rest ih =>
    rw [List.filterMap_cons]
    by_cases h : jsTrim p.2 = ""
    · rw [show contactKeep p = none from by simp [contactKeep, h]]
      exact ih.cons _
    · rw [show contactKeep p = some (p.1, Json.str (jsTrim p.2)) from by simp [contactKeep, h]]
      simpa using ih.cons₂ p.1

theorem filterMap_contactKeep_cons (k : String) (o : Option String)
    (rest : List (String × String)) :
    List.filterMap contactKeep ((k, o.getD "") :: rest)
    = optPair k (dropEmptyTrim o) ++ List.filterMap contactKeep rest := by
  cases o with
  | none => simp [List.filterMap_cons, contactKeep, dropEmptyTrim, optPair, jsTrim]
  | some v =>
    by_cases h : jsTrim v = "" <;>
      simp [List.filterMap_cons, contactKeep, dropEmptyTrim, optPair, h]

theorem renderContact_canonical (c : ContactVal) :
    renderEditor "contact" (some c.toJson) = FormState.contactForm
      [("location", c.location.getD ""), ("email", c.email.getD ""),
       ("phone", c.phone.getD ""), ("linkedin_url", c.linkedin_url.getD ""),
       ("portfolio_url", c.portfolio_url.getD ""), ("github", c.github.getD "")] := by
  rcases c with ⟨l, e, p, li, po, g⟩
  cases l <;> cases e <;> cases p <;> cases li <;> cases po <;> cases g <;>
    simp [renderEditor, isTypeofObject, ContactVal.toJson, optPair, renderContactField,
          getField, objLookup, contactFieldKeys, truthyOpt, truthy, jsToString,
          apply_ite optToStr, optToStr_str, optToStr_none, if_empty_self]

theorem skillsFold_map (pairs : List (String × String)) (acc : List (String × Json)) :
    (pairs.map (fun p => Block.skill p.1 p.2)).foldl skillsFoldStep acc
    = (pairs.map (fun p => (p.1, Json.str p.2))).foldl (fun m p => objSet m p.1 p.2) acc := by
  induction pairs generalizing acc with
  | nil => rfl
  | cons p rest ih =>
    rw [List.map_cons, List.foldl_cons, List.map_cons, List.foldl_cons]
    exact ih _

/-- The value the last block with category `k` assigned (if any). -/
def lastAssign {α : Type} : List (String × α) → String → Option α
  | [], _ => none
  | p :: rest, k =>
    match lastAssign rest k with
    | some v => some v
    | none => if p.1 = k then some p.2 else none

/-- Paraphrase of JS object insertion order: each key keeps its first
occurrence's position, later occurrences are dropped. -/
def dedupKeepFirst : List String → List String
  | [] => []
  | k :: rest => k :: dedupKeepFirst (rest.filter (fun x => !(x == k)))
termination_by l => l.length
decreasing_by
  simp only [List.length_cons]
  exact Nat.lt_succ_of_le (List.length_filter_le _ _)

theorem dedupKeepFirst_nil : dedupKeepFirst [] = [] := by
  rw [dedupKeepFirst.eq_def]

theorem dedupKeepFirst_cons (k : String) (rest : List String) :
    dedupKeepFirst (k :: rest)
    = k :: dedupKeepFirst (rest.filter (fun x => !(x == k))) := by
  rw [dedupKeepFirst.eq_def]

theorem objLookup_foldl_objSet (pairs : List (String × Json))
    (acc : List (String × Json)) (k : String) :
    objLookup (pairs.foldl (fun m p => objSet m p.1 p.2) acc) k
    = match lastAssign pairs k with
      | some v => some v
      | none => objLookup acc k := by
  induction pairs generalizing acc with
  | nil => rfl
  | cons p rest ih =>
    rw [List.foldl_cons, ih, lastAssign]
    rcases hl : lastAssign rest k with _ | v
    · simp only []
      rw [objLookup_objSet]
      by_cases hk : p.1 = k
      · subst hk; simp
      · simp [hk]
    · simp

theorem map_fst_foldl_objSet {α : Type} (pairs : List (String × α))
    (acc : List (String × α)) :
    (pairs.foldl (fun m p => objSet m p.1 p.2) acc).map Prod.fst
    = acc.map Prod.fst ++
      dedupKeepFirst ((pairs.map Prod.fst).filter
        (fun k => !(decide (k ∈ acc.map Prod.fst)))) := by
  induction pairs generalizing acc with
  | nil => simp [dedupKeepFirst]
  | cons p rest ih =>
    rw [List.foldl_cons, ih, map_fst_objSet, List.map_cons, List.filter_cons]
    by_cases hmem : p.1 ∈ acc.map Prod.fst
    · rw [if_pos hmem]
      simp [hmem]
    · rw [if_neg hmem]
      have hcond : (!(decide (p.1 ∈ acc.map Prod.fst))) = true := by simp [hmem]
      rw [if_pos hcond, dedupKeepFirst_cons, List.append_assoc, List.singleton_append]
      congr 2
      rw [List.filter_filter]
      refine congrArg dedupKeepFirst (List.filter_congr ?_)
      intro x _
      by_cases hx1 : x ∈ acc.map Prod.fst <;> by_cases hx2 : x = p.1 <;>
        simp [hx1, hx2, List.mem_append]

theorem pick_single_str (item : Json) (k s : String)
    (h : getField item k = some (Json.str s)) : pick item [k] = s := by
  rw [pick_str_found item k s [] h]
  show (if s = "" then "" else s) = s
  exact if_empty_self s

theorem pick_double_str (item : Json) (k1 k2 s : String)
    (h1 : getField item k1 = some (Json.str s)) (h2 : getField item k2 = none) :
    pick item [k1, k2] = s := by
  rw [pick_str_found item k1 s [k2] h1, pick_miss item k2 [] h2]
  show (if s = "" then "" else s) = s
  exact if_empty_self s

theorem map_renderBulletRow_str (l : List String) :
    l.map (renderBulletRow ∘ Json.str) = l := by
  induction l with
  | nil => rfl
  | cons x xs ih => simp [Function.comp, renderBulletRow_str, ih]

theorem renderItemBlock_exp (e : ExpEntryV) :
    renderItemBlock "experience" e.toJson
    = Block.item { company := some e.company, role := some e.role,
                   location := some e.location, dates := some e.dates } e.bullets := by
  simp [renderItemBlock,
        show getField e.toJson "bullets" = some (Json.arr (e.bullets.map Json.str)) from rfl,
        pick_single_str e.toJson "company" e.company rfl,
        pick_single_str e.toJson "location" e.location rfl,
        pick_double_str e.toJson "role" "title" e.role rfl rfl,
        pick_double_str e.toJson "dates" "date" e.dates rfl rfl,
        List.map_map, renderBulletRow_str, map_renderBulletRow_str]

theorem renderItemBlock_lead (e : LeadEntryV) :
    renderItemBlock "leadership" e.toJson
    = Block.item { org := some e.organization, role := some e.role,
                   location := some e.location, dates := some e.dates } e.bullets := by
  simp [renderItemBlock,
        show getField e.toJson "bullets" = some (Json.arr (e.bullets.map Json.str)) from rfl,
        pick_single_str e.toJson "organization" e.organization rfl,
        pick_single_str e.toJson "role" e.role rfl,
        pick_single_str e.toJson "location" e.location rfl,
        pick_single_str e.toJson "dates" e.dates rfl,
        List.map_map, renderBulletRow_str, map_renderBulletRow_str]

theorem renderItemBlock_proj (e : ProjEntryV) :
    renderItemBlock "projects" e.toJson
    = Block.item { name := some e.name, tech := some e.tech,
                   dates := some e.dates } e.bullets := by
  simp [renderItemBlock,
        show getField e.toJson "bullets" = some (Json.arr (e.bullets.map Json.str)) from rfl,
        pick_single_str e.toJson "name" e.name rfl,
        pick_single_str e.toJson "tech" e.tech rfl,
        pick_double_str e.toJson "dates" "date" e.dates rfl rfl,
        List.map_map, renderBulletRow_str, map_renderBulletRow_str]

theorem parse_render_exp_entry (e : ExpEntryV) :
    parseItemBlock "experience" (renderItemBlock "experience" e.toJson)
    = ExpEntryV.toJson { e with bullets := e.bullets.filter (fun t => jsTrim t ≠ "") } := by
  rw [renderItemBlock_exp]; rfl

theorem parse_render_lead_entry (e : LeadEntryV) :
    parseItemBlock "leadership" (renderItemBlock "leadership" e.toJson)
    = LeadEntryV.toJson { e with bullets := e.bullets.filter (fun t => jsTrim t ≠ "") } := by
  rw [renderItemBlock_lead]; rfl

theorem parse_render_proj_entry (e : ProjEntryV) :
    parseItemBlock "projects" (renderItemBlock "projects" e.toJson)
    = ProjEntryV.toJson { e with bullets := e.bullets.filter (fun t => jsTrim t ≠ "") } := by
  rw [renderItemBlock_proj]; rfl

theorem parse_render_contact (c : ContactVal) :
    parseEditor [] "contact" (some (renderEditor "contact" (some c.toJson)))
    = some (ContactVal.toJson { location := dropEmptyTrim c.location,
                                email := dropEmptyTrim c.email,
                                phone := dropEmptyTrim c.phone,
                                linkedin_url := dropEmptyTrim c.linkedin_url,
                                portfolio_url := dropEmptyTrim c.portfolio_url,
                                github := dropEmptyTrim c.github }) := by
  rw [renderContact_canonical]
  show some (Json.obj (List.foldl contactFoldStep []
    [("location", c.location.getD ""), ("email", c.email.getD ""),
     ("phone", c.phone.getD ""), ("linkedin_url", c.linkedin_url.getD ""),
     ("portfolio_url", c.portfolio_url.getD ""), ("github", c.github.getD "")])) = _
  rw [foldl_contact_eq_filterMap]
  have hnd : ((([] : List (String × Json)) ++
      (List.filterMap contactKeep
        [("location", c.location.getD ""), ("email", c.email.getD ""),
         ("phone", c.phone.getD ""), ("linkedin_url", c.linkedin_url.getD ""),
         ("portfolio_url", c.portfolio_url.getD ""),
         ("github", c.github.getD "")])).map Prod.fst).Nodup := by
    rw [List.nil_append]
    refine List.Nodup.sublist (map_fst_filterMap_contactKeep _) ?_
    show (contactFieldKeys : List String).Nodup
    decide
  rw [foldl_objSet_eq_append _ _ hnd, List.nil_append]
  rw [filterMap_contactKeep_cons, filterMap_contactKeep_cons, filterMap_contactKeep_cons,
      filterMap_contactKeep_cons, filterMap_contactKeep_cons, filterMap_contactKeep_cons]
  simp [ContactVal.toJson, List.append_assoc]

theorem parse_render_skills (m : List (String × String))
    (h : (m.map Prod.fst).Nodup) :
    parseEditor [] "skills" (some (renderEditor "skills" (some (Json.obj
      (m.map (fun p => (p.1, Json.str p.2)))))))
    = some (Json.obj (m.map (fun p => (p.1, Json.str p.2)))) := by
  have hrender : renderEditor "skills" (some (Json.obj (m.map (fun p => (p.1, Json.str p.2)))))
      = FormState.blocksForm (m.map (fun p => Block.skill p.1 p.2)) := by
    simp [renderEditor, isListSection, truthyOpt, truthy, jsEntries, List.map_map,
          Function.comp, jsToString]
  rw [hrender]
  show some (Json.obj (List.foldl skillsFoldStep []
    (m.map (fun p => Block.skill p.1 p.2)))) = _
  rw [skillsFold_map]
  have hnd : ((([] : List (String × Json)) ++
      (m.map (fun p => (p.1, Json.str p.2)))).map Prod.fst).Nodup := by
    rw [List.nil_append]
    simpa [List.map_map, Function.comp] using h
  rw [foldl_objSet_eq_append _ _ hnd, List.nil_append]

/-!
## Claim theorems
-/

/-- The canonical contact value `{email: " a"}` (one field, value with
leading whitespace): the round-trip trims the value, which neither of the
two deviations stated by claim C1 permits. -/
def c1CounterVal : CanonVal := .contact { email := some " a" }

/-- C1 (counterexample): for the canonical contact value `{email: " a"}`,
`parseEditor` applied to `renderEditor`'s view yields `{email: "a"}` — the
retained field's value is trimmed — which differs from the claim's
prediction (omission of empty-after-trim fields and bullet filtering
only, i.e. `{email: " a"}` unchanged).  So the round trip is not equal to
the canonical value up to exactly the two stated deviations. -/
theorem c1_roundtrip_counterexample :
    parseEditor [] c1CounterVal.sectionOf
        (some (renderEditor c1CounterVal.sectionOf (some c1CounterVal.toJson)))
      = some (Json.obj [("email", Json.str "a")])
    ∧ parseEditor [] c1CounterVal.sectionOf
        (some (renderEditor c1CounterVal.sectionOf (some c1CounterVal.toJson)))
      ≠ some c1CounterVal.scrubClaim.toJson := by
  constructor
  · rfl
  · decide

/-- C1 (amended): for every known section type and canonical value `V` of
its shape (for `skills`, with the distinct category keys a JS object
necessarily has), parsing the rendered view yields `V` up to three
deviations: contact fields empty after trimming are omitted, surviving
contact field values are trimmed, and blank or whitespace-only strings
are removed from every `bullets` list. -/
theorem c1_roundtrip_amended (V : CanonVal) (h : V.wf) :
    parseEditor [] V.sectionOf (some (renderEditor V.sectionOf (some V.toJson)))
    = some V.scrubCode.toJson := by
  cases V with
  | summary s =>
    simp [CanonVal.sectionOf, CanonVal.toJson, CanonVal.scrubCode, CanonVal.scrubClaim,
          renderEditor, parseEditor, summaryTextOf, getVal, optToStr_str]
  | contact c =>
    simpa [CanonVal.sectionOf, CanonVal.toJson, CanonVal.scrubCode] using
      parse_render_contact c
  | skills m =>
    have hm : (m.map Prod.fst).Nodup := h
    simpa [CanonVal.sectionOf, CanonVal.toJson, CanonVal.scrubCode, CanonVal.scrubClaim]
      using parse_render_skills m hm
  | experience es =>
    simp [CanonVal.sectionOf, CanonVal.toJson, CanonVal.scrubCode, CanonVal.scrubClaim,
          renderEditor, parseEditor, isListSection, blocksOf, List.map_map,
          Function.comp, parse_render_exp_entry]
  | projects ps =>
    simp [CanonVal.sectionOf, CanonVal.toJson, CanonVal.scrubCode, CanonVal.scrubClaim,
          renderEditor, parseEditor, isListSection, blocksOf, List.map_map,
          Function.comp, parse_render_proj_entry]
  | leadership ls =>
    simp [CanonVal.sectionOf, CanonVal.toJson, CanonVal.scrubCode, CanonVal.scrubClaim,
          renderEditor, parseEditor, isListSection, blocksOf, List.map_map,
          Function.comp, parse_render_lead_entry]

/-- C1 (witness): the amended round trip evaluated at a concrete skills
value (exercising the well-formedness hypothesis). -/
theorem c1_roundtrip_amended_witness :
    (CanonVal.skills [("Languages", "Python, Go")]).wf
    ∧ parseEditor [] (CanonVal.skills [("Languages", "Python, Go")]).sectionOf
        (some (renderEditor (CanonVal.skills [("Languages", "Python, Go")]).sectionOf
          (some (CanonVal.skills [("Languages", "Python, Go")]).toJson)))
      = some (CanonVal.skills [("Languages", "Python, Go")]).scrubCode.toJson :=
  ⟨by show (([("Languages", "Python, Go")] : List (String × String)).map Prod.fst).Nodup
      decide,
   c1_roundtrip_amended (CanonVal.skills [("Languages", "Python, Go")])
     (by show (([("Languages", "Python, Go")] : List (String × String)).map Prod.fst).Nodup
         decide)⟩

/-- C2: navigating from tracked active section `a` to `b` while a document
is loaded parses `a` from its still-current view; a non-sentinel result is
written into the document at key `a` before `b` is rendered (the render
reads the updated document), and `b` is rendered and becomes the tracked
section regardless of whether `a`'s parse returned the null sentinel. -/
theorem c2_autocommit_on_navigation (st : EditorState) (a b : String)
    (doc : List (String × JsVal)) (hdoc : st.doc = some doc)
    (hprev : st.prevSection = some a) (ha : a ≠ "") :
    (isNullSentinel (parseEditor doc a st.form) = false →
       (sectionSelectChange st b).doc
           = some (objSet doc a (parseEditor doc a st.form))
       ∧ (sectionSelectChange st b).form
           = st.form.map (fun _ =>
               renderEditor b (docGet (objSet doc a (parseEditor doc a st.form)) b)))
    ∧ (isNullSentinel (parseEditor doc a st.form) = true →
       (sectionSelectChange st b).doc = some doc
       ∧ (sectionSelectChange st b).form
           = st.form.map (fun _ => renderEditor b (docGet doc b)))
    ∧ (sectionSelectChange st b).prevSection = some b := by
  refine ⟨fun hs => ?_, fun hs => ?_, ?_⟩
  · simp [sectionSelectChange, hdoc, hprev, ha, hs]
  · simp [sectionSelectChange, hdoc, hprev, ha, hs]
  · simp [sectionSelectChange, hdoc, hprev, ha]

/-- State for the concrete C2 run: edit session open on `summary` with an
edited view, navigating to `skills`. -/
def c2State : EditorState :=
  { doc := some [("summary", some (Json.str "S")), ("skills", some (Json.obj []))]
    form := some (FormState.summaryForm "edited")
    prevSection := some "summary"
    activeSelect := "summary"
    currentViewUrl := "u"
    storedResume := some [("summary", some (Json.str "S"))]
    storedViewUrl := some "u"
    storedStatus := some "st"
    storedCompany := some "co"
    statusText := ""
    editorVisible := true
    actionsVisible := false
    alerts := [] }

/-- C2 (witness): the navigation theorem applied at `c2State`, switching
from `summary` to `skills`: the edited summary is committed before
`skills` is rendered, and the tracker moves to `skills`. -/
theorem c2_autocommit_on_navigation_witness :
    c2State.doc = some [("summary", some (Json.str "S")), ("skills", some (Json.obj []))]
    ∧ (sectionSelectChange c2State "skills").doc
        = some [("summary", some (Json.str "edited")), ("skills", some (Json.obj []))]
    ∧ (sectionSelectChange c2State "skills").prevSection = some "skills" := by
  have h := c2_autocommit_on_navigation c2State "summary" "skills"
    [("summary", some (Json.str "S")), ("skills", some (Json.obj []))]
    rfl rfl (by decide)
  exact ⟨rfl, by rw [(h.1 (by decide)).1]; decide, h.2.2⟩

/-- Session state for the concrete C3 run: document edited to
`summary = "B"` while the persisted snapshot still holds `summary = "A"`. -/
def c3State : EditorState :=
  { doc := some [("summary", some (Json.str "B"))]
    form := some (FormState.summaryForm "B")
    prevSection := some "summary"
    activeSelect := "summary"
    currentViewUrl := "u0"
    storedResume := some [("summary", some (Json.str "A"))]
    storedViewUrl := some "u0"
    storedStatus := some "st"
    storedCompany := some "co"
    statusText := ""
    editorVisible := true
    actionsVisible := false
    alerts := [] }

/-- C3 (counterexample): cancel does not discard the in-memory document.
A session whose document holds `summary = "B"` over a persisted snapshot
holding `summary = "A"`: after cancel the document is unchanged, and a
subsequent open reuses it instead of deep-copying the snapshot, so the
post-open document differs from the claim's predicted deep copy. -/
theorem c3_cancel_counterexample :
    (cancelEditClick c3State).doc = c3State.doc
    ∧ (editBtnClick (cancelEditClick c3State)).doc
        = some [("summary", some (Json.str "B"))]
    ∧ (editBtnClick (cancelEditClick c3State)).doc
        ≠ some (deepCopyDoc [("summary", some (Json.str "A"))]) := by
  refine ⟨rfl, by decide, by decide⟩

/-- C3 (amended): cancel hides the editor and performs no commit; the
persisted snapshot, the artifact references, the tracker and the
in-memory document are all left unchanged — in particular the document is
retained rather than discarded, so a subsequent open takes the reuse
branch (it behaves as `editOpenShow`, never re-copying the snapshot). -/
theorem c3_cancel_frame (st : EditorState) (d : List (String × JsVal)) :
    (cancelEditClick st).doc = st.doc
    ∧ (cancelEditClick st).storedResume = st.storedResume
    ∧ (cancelEditClick st).storedViewUrl = st.storedViewUrl
    ∧ (cancelEditClick st).storedStatus = st.storedStatus
    ∧ (cancelEditClick st).storedCompany = st.storedCompany
    ∧ (cancelEditClick st).currentViewUrl = st.currentViewUrl
    ∧ (cancelEditClick st).prevSection = st.prevSection
    ∧ (cancelEditClick st).form = st.form
    ∧ (cancelEditClick st).editorVisible = false
    ∧ editBtnClick (cancelEditClick { st with doc := some d })
        = editOpenShow (cancelEditClick { st with doc := some d }) :=
  ⟨rfl, rfl, rfl, rfl, rfl, rfl, rfl, rfl, rfl, rfl⟩

/-- C4: a save whose regeneration succeeds (HTTP ok, `status = "success"`)
writes exactly the three storage keys: the new artifact reference
(`lastViewUrl`), the full committed in-session document (`lastResumeData`)
and the status string (`lastStatus`); the snapshot equals the whole
document, with every key other than the just-committed active section
carried over unchanged from the session document. -/
theorem c4_save_success (st : EditorState) (doc : List (String × JsVal))
    (url : String) (hdoc : st.doc = some doc) :
    let saved := parseEditor doc st.activeSelect st.form
    let doc' := if isNullSentinel saved then doc else objSet doc st.activeSelect saved
    let st' := saveRegenClick st (RegenResponse.ok "success" url)
    st'.storedResume = some doc'
    ∧ st'.storedViewUrl = some url
    ∧ st'.storedStatus = some "Resume updated."
    ∧ st'.currentViewUrl = url
    ∧ st'.doc = some doc'
    ∧ st'.storedCompany = st.storedCompany
    ∧ st'.editorVisible = false
    ∧ (∀ k, k ≠ st.activeSelect → docGet doc' k = docGet doc k) := by
  intro saved doc' st'
  have hframe : st' = { st with
      doc := some doc', statusText := "Resume updated successfully!",
      currentViewUrl := url, storedViewUrl := some url,
      storedResume := some doc', storedStatus := some "Resume updated.",
      actionsVisible := true, editorVisible := false } := by
    simp only [st', saveRegenClick, hdoc]
    rfl
  refine ⟨by rw [hframe], by rw [hframe], by rw [hframe], by rw [hframe],
          by rw [hframe], by rw [hframe], by rw [hframe], ?_⟩
  intro k hk
  by_cases hs : isNullSentinel saved
  · simp only [doc', if_pos hs]
  · simp only [doc', if_neg hs]
    rw [docGet_objSet]
    exact if_neg (fun hh => hk hh.symm)

/-- Session state for the concrete save runs: open on `summary`, view
edited to "S2". -/
def c4State : EditorState :=
  { doc := some [("summary", some (Json.str "S1"))]
    form := some (FormState.summaryForm "S2")
    prevSection := some "summary"
    activeSelect := "summary"
    currentViewUrl := "u0"
    storedResume := some [("summary", some (Json.str "S1"))]
    storedViewUrl := some "u0"
    storedStatus := some "st"
    storedCompany := some "co"
    statusText := ""
    editorVisible := true
    actionsVisible := false
    alerts := [] }

/-- C4 (witness): the successful-save theorem applied at `c4State` with
the new artifact reference "u1": all three storage keys are written and
the snapshot equals the committed document. -/
theorem c4_save_success_witness :
    c4State.doc = some [("summary", some (Json.str "S1"))]
    ∧ (saveRegenClick c4State (RegenResponse.ok "success" "u1")).storedResume
        = some [("summary", some (Json.str "S2"))]
    ∧ (saveRegenClick c4State (RegenResponse.ok "success" "u1")).storedViewUrl = some "u1"
    ∧ (saveRegenClick c4State (RegenResponse.ok "success" "u1")).storedStatus
        = some "Resume updated." := by
  have h := c4_save_success c4State [("summary", some (Json.str "S1"))] "u1" rfl
  exact ⟨rfl, by rw [h.1]; decide, h.2.1, h.2.2.1⟩

/-- C5 (counterexample): a response that is HTTP-ok but carries
`status = "error"` triggers no alert (the log stays empty) and leaves the
status line at "Regenerating PDF..." — the failure is not reported to the
user, contrary to the claim. -/
theorem c5_silent_failure_counterexample :
    (saveRegenClick c4State (RegenResponse.ok "error" "u1")).alerts = []
    ∧ (saveRegenClick c4State (RegenResponse.ok "error" "u1")).statusText
        = "Regenerating PDF..."
    ∧ c4State.alerts = [] := by
  refine ⟨by decide, by decide, rfl⟩

/-- C5 (amended): every failed regeneration (network/HTTP failure or a
non-success status) leaves the persisted snapshot, the artifact
references, the visibility state and the tracker unchanged, and the
session document stays loaded (the session remains open and editable with
no commit to persisted storage); but only the network/HTTP failure is
reported via an alert — a non-success status in an HTTP-ok response fails
silently. -/
theorem c5_save_failure_frame (st : EditorState) (doc : List (String × JsVal))
    (resp : RegenResponse) (hdoc : st.doc = some doc)
    (hfail : (∃ msg, resp = RegenResponse.netFail msg)
             ∨ (∃ status url, resp = RegenResponse.ok status url ∧ status ≠ "success")) :
    let st' := saveRegenClick st resp
    st'.storedResume = st.storedResume
    ∧ st'.storedViewUrl = st.storedViewUrl
    ∧ st'.storedStatus = st.storedStatus
    ∧ st'.storedCompany = st.storedCompany
    ∧ st'.currentViewUrl = st.currentViewUrl
    ∧ st'.editorVisible = st.editorVisible
    ∧ st'.actionsVisible = st.actionsVisible
    ∧ st'.prevSection = st.prevSection
    ∧ (∃ d, st'.doc = some d)
    ∧ (∀ msg, resp = RegenResponse.netFail msg →
        st'.alerts = st.alerts ++ ["Error: " ++ msg])
    ∧ (∀ status url, resp = RegenResponse.ok status url → status ≠ "success" →
        st'.alerts = st.alerts) := by
  intro st'
  rcases hfail with ⟨msg, rfl⟩ | ⟨status, url, rfl, hne⟩
  · simp [st', saveRegenClick, hdoc]
  · simp [st', saveRegenClick, hdoc, hne]

/-- C5 (witness): the failure-frame theorem applied at `c4State` with a
network failure: stores and session state unchanged, alert shown. -/
theorem c5_save_failure_frame_witness :
    c4State.doc = some [("summary", some (Json.str "S1"))]
    ∧ (saveRegenClick c4State (RegenResponse.netFail "boom")).storedResume
        = c4State.storedResume
    ∧ (saveRegenClick c4State (RegenResponse.netFail "boom")).storedViewUrl
        = c4State.storedViewUrl
    ∧ (saveRegenClick c4State (RegenResponse.netFail "boom")).editorVisible
        = c4State.editorVisible
    ∧ (saveRegenClick c4State (RegenResponse.netFail "boom")).alerts
        = c4State.alerts ++ ["Error: boom"] := by
  have h := c5_save_failure_frame c4State [("summary", some (Json.str "S1"))]
    (RegenResponse.netFail "boom") rfl (Or.inl ⟨"boom", rfl⟩)
  exact ⟨rfl, h.1, h.2.1, h.2.2.2.2.2.1, h.2.2.2.2.2.2.2.2.2.1 "boom" rfl⟩

/-- C6: for an unknown section type whose raw edit fails to deserialize,
`parseEditor` returns the previous canonical value for that section
unchanged (no failure signal reaches the caller: the return value is
simply the stored value), and the ensuing auto-commit leaves every key of
the in-memory document unchanged (fail-closed). -/
theorem c6_unknown_failed_parse_fail_closed (st : EditorState)
    (doc : List (String × JsVal)) (s raw b : String)
    (hdoc : st.doc = some doc)
    (hform : st.form = some (FormState.rawForm raw))
    (hprev : st.prevSection = some s)
    (hs : s ∉ ["summary", "contact", "skills", "experience", "projects", "leadership"])
    (hs0 : s ≠ "")
    (hparse : jsonParse raw = none) :
    parseEditor doc s st.form = docGet doc s
    ∧ ∃ doc', (sectionSelectChange st b).doc = some doc'
        ∧ ∀ k, docGet doc' k = docGet doc k := by
  simp only [List.mem_cons, List.mem_singleton, not_or] at hs
  obtain ⟨h1, h2, h3, h4, h5, h6⟩ := hs
  have hpe : parseEditor doc s st.form = docGet doc s := by
    rw [hform]
    simp [parseEditor, h1, h2, h3, isListSection, h4, h5, h6, rawTextOf, hparse]
  refine ⟨hpe, ?_⟩
  by_cases hn : isNullSentinel (docGet doc s)
  · refine ⟨doc, ?_, fun k => rfl⟩
    simp [sectionSelectChange, hdoc, hprev, hs0, hpe, hn]
  · refine ⟨objSet doc s (docGet doc s), ?_, fun k => ?_⟩
    · simp [sectionSelectChange, hdoc, hprev, hs0, hpe, hn]
    · rw [docGet_objSet]
      by_cases hk : s = k
      · subst hk; simp
      · simp [hk]

/-- Session state for the concrete C6 run: open on the unknown section
`custom` (stored value `"v"`) whose raw view holds the non-JSON text `x`. -/
def c6State : EditorState :=
  { doc := some [("custom", some (Json.str "v"))]
    form := some (FormState.rawForm "x")
    prevSection := some "custom"
    activeSelect := "custom"
    currentViewUrl := "u0"
    storedResume := some [("custom", some (Json.str "v"))]
    storedViewUrl := some "u0"
    storedStatus := some "st"
    storedCompany := some "co"
    statusText := ""
    editorVisible := true
    actionsVisible := false
    alerts := [] }

/-- C6 (witness): the fail-closed theorem applied at `c6State`: the parse
of the malformed raw text returns the stored value `"v"` unchanged. -/
theorem c6_unknown_failed_parse_fail_closed_witness :
    jsonParse "x" = none
    ∧ parseEditor [("custom", some (Json.str "v"))] "custom" c6State.form
        = docGet [("custom", some (Json.str "v"))] "custom" := by
  have h := c6_unknown_failed_parse_fail_closed c6State
    [("custom", some (Json.str "v"))] "custom" "x" "summary"
    rfl rfl rfl (by decide) (by decide) (by decide)
  exact ⟨by decide, h.1⟩

/-- C7 (counterexample): a skills view holding two category blocks both
named "Tools" parses to an object with a single entry, valued from the
second block — JS object assignment deduplicates the keys (last write
wins), so the category blocks do not all survive as the claim states. -/
theorem c7_skills_duplicate_counterexample :
    parseEditor [] "skills" (some (FormState.blocksForm
      [Block.skill "Tools" "Docker", Block.skill "Tools" "K8s"]))
      = some (Json.obj [("Tools", Json.str "K8s")])
    ∧ parseEditor [] "skills" (some (FormState.blocksForm
      [Block.skill "Tools" "Docker", Block.skill "Tools" "K8s"]))
      ≠ some (Json.obj [("Tools", Json.str "Docker"), ("Tools", Json.str "K8s")]) := by
  refine ⟨by decide, by decide⟩

/-- C7 (amended): parsing a skills view returns a mapping keyed by the
category inputs' current text (renaming honored): its keys are the
category texts in display order with later duplicates dropped (each key
sits at its first occurrence), and each key's value is the values text of
the **last** block carrying that category name — duplicates are
deduplicated, last write wins, rather than passed through. -/
theorem c7_skills_parse_characterization (pairs : List (String × String)) :
    ∃ res, parseEditor [] "skills"
        (some (FormState.blocksForm (pairs.map (fun p => Block.skill p.1 p.2))))
        = some (Json.obj res)
      ∧ res.map Prod.fst = dedupKeepFirst (pairs.map Prod.fst)
      ∧ ∀ k, objLookup res k
          = lastAssign (pairs.map (fun p => (p.1, Json.str p.2))) k := by
  refine ⟨(pairs.map (fun p => (p.1, Json.str p.2))).foldl
      (fun m p => objSet m p.1 p.2) [], ?_, ?_, ?_⟩
  · show some (Json.obj ((pairs.map (fun p => Block.skill p.1 p.2)).foldl
        skillsFoldStep [])) = _
    rw [skillsFold_map]
  · rw [map_fst_foldl_objSet]
    have h1 : (pairs.map (fun p => (p.1, Json.str p.2))).map Prod.fst
        = pairs.map Prod.fst := by
      rw [List.map_map]
      rfl
    simp [h1]
  · intro k
    rw [objLookup_foldl_objSet]
    rcases h : lastAssign (pairs.map (fun p => (p.1, Json.str p.2))) k with _ | v <;>
      simp [h, objLookup]

/-- C8: an experience entry with no `role` key and `title = "Engineer"`
renders with its role input populated "Engineer" (dual-alias read), and
parsing the rendered single-entry view yields an entry whose `role` is
"Engineer" with no `title` key (single canonical write). -/
theorem c8_experience_title_alias (item : Json)
    (hrole : getField item "role" = none)
    (htitle : getField item "title" = some (Json.str "Engineer")) :
    (renderItemBlock "experience" item).roleInput = some "Engineer"
    ∧ renderEditor "experience" (some (Json.arr [item]))
        = FormState.blocksForm [renderItemBlock "experience" item]
    ∧ parseEditor [] "experience" (some (renderEditor "experience" (some (Json.arr [item]))))
        = some (Json.arr [parseItemBlock "experience" (renderItemBlock "experience" item)])
    ∧ getField (parseItemBlock "experience" (renderItemBlock "experience" item)) "role"
        = some (Json.str "Engineer")
    ∧ getField (parseItemBlock "experience" (renderItemBlock "experience" item)) "title"
        = none := by
  have hri : (renderItemBlock "experience" item).roleInput = some "Engineer" := by
    simp only [renderItemBlock, if_true, Block.roleInput]
    show some (pick item ["role", "title"]) = some "Engineer"
    rw [pick_miss item "role" ["title"] hrole,
        pick_str_found item "title" "Engineer" [] htitle]
    simp
  refine ⟨hri, rfl, rfl, ?_, ?_⟩
  · show objLookup [("company", Json.str (getVal (renderItemBlock "experience" item).companyInput)),
        ("role", Json.str (getVal (renderItemBlock "experience" item).roleInput)),
        ("dates", Json.str (getVal (renderItemBlock "experience" item).datesInput)),
        ("location", Json.str (getVal (renderItemBlock "experience" item).locationInput)),
        ("bullets", Json.arr (((renderItemBlock "experience" item).bulletInputs.filter
          (fun t => jsTrim t ≠ "")).map Json.str))] "role"
      = some (Json.str "Engineer")
    rw [hri]
    simp [objLookup, getVal]
  · rfl

/-- Concrete experience entry for the C8 witness: has `title` but no
`role`. -/
def c8Item : Json :=
  Json.obj [("company", Json.str "Acme"), ("title", Json.str "Engineer"),
            ("location", Json.str "NYC"), ("dates", Json.str "2024"),
            ("bullets", Json.arr [Json.str "Did things"])]

/-- C8 (witness): the alias theorem applied at `c8Item`: the role field
renders "Engineer"; the parsed entry carries `role` and no `title`. -/
theorem c8_experience_title_alias_witness :
    getField c8Item "role" = none
    ∧ getField c8Item "title" = some (Json.str "Engineer")
    ∧ (renderItemBlock "experience" c8Item).roleInput = some "Engineer"
    ∧ getField (parseItemBlock "experience" (renderItemBlock "experience" c8Item)) "role"
        = some (Json.str "Engineer")
    ∧ getField (parseItemBlock "experience" (renderItemBlock "experience" c8Item)) "title"
        = none := by
  have h := c8_experience_title_alias c8Item rfl rfl
  exact ⟨rfl, rfl, h.1, h.2.2.2.1, h.2.2.2.2⟩

/-- C9 (counterexample): a leadership entry with no `role` key but
`title = "Captain"` renders its role input empty, not populated from
`title` — the leadership render branch has no `title` fallback, contrary
to "the same dual-alias fallback as experience". -/
theorem c9_leadership_no_title_fallback_counterexample :
    (renderItemBlock "leadership"
        (Json.obj [("organization", Json.str "Org"),
                   ("title", Json.str "Captain")])).roleInput = some ""
    ∧ (renderItemBlock "leadership"
        (Json.obj [("organization", Json.str "Org"),
                   ("title", Json.str "Captain")])).roleInput ≠ some "Captain" := by
  refine ⟨by decide, by decide⟩

/-- C9 (amended): the leadership render branch reads only the canonical
`role` key — an entry without `role` renders an empty role field whatever
`title` holds — while the leadership parse branch writes only the single
canonical key `role` (and never `title`) for every block. -/
theorem c9_leadership_role_canonical (item : Json) (b : Block)
    (hrole : getField item "role" = none) :
    (renderItemBlock "leadership" item).roleInput = some ""
    ∧ getField (parseItemBlock "leadership" b) "role"
        = some (Json.str (getVal b.roleInput))
    ∧ getField (parseItemBlock "leadership" b) "title" = none := by
  refine ⟨?_, rfl, rfl⟩
  simp only [renderItemBlock, if_true, Block.roleInput]
  show some (pick item ["role"]) = some ""
  rw [pick_miss item "role" [] hrole]
  rfl

/-- C9 (witness): the canonical-role theorem applied to the concrete
entry `{organization: "Org", title: "Captain"}` and a concrete block. -/
theorem c9_leadership_role_canonical_witness :
    getField (Json.obj [("organization", Json.str "Org"),
                        ("title", Json.str "Captain")]) "role" = none
    ∧ (renderItemBlock "leadership"
        (Json.obj [("organization", Json.str "Org"),
                   ("title", Json.str "Captain")])).roleInput = some ""
    ∧ getField (parseItemBlock "leadership"
        (Block.item { org := some "Org", role := some "Captain",
                      location := some "L", dates := some "D" } [])) "title" = none := by
  have h := c9_leadership_role_canonical
    (Json.obj [("organization", Json.str "Org"), ("title", Json.str "Captain")])
    (Block.item { org := some "Org", role := some "Captain",
                  location := some "L", dates := some "D" } []) rfl
  exact ⟨rfl, h.1, h.2.2⟩

/-- C10 (counterexample): the null sentinel is not returned only when the
form container is absent: with the container present (raw fallback view
"x", which fails to deserialize) and an unknown section whose previous
canonical value is JSON `null`, `parseEditor` returns `null`. -/
theorem c10_null_sentinel_counterexample :
    parseEditor [("custom", some Json.null)] "custom"
      (some (FormState.rawForm "x")) = some Json.null := by
  decide

/-- C10 (amended): `parseEditor` returns the null sentinel when the form
container is absent, and for each of the six known section names a
present container always yields a defined, non-null value — so an
auto-commit of a known section always overwrites it (the write-skip
branch is unreachable there); only the unknown-section fallback can also
surface `null`, when the previous canonical value is itself JSON `null`. -/
theorem c10_known_section_parse_nonnull (doc : List (String × JsVal))
    (sect : String) (fs : FormState)
    (hknown : sect ∈ ["summary", "contact", "skills", "experience", "projects", "leadership"]) :
    (∃ v, parseEditor doc sect (some fs) = some v ∧ v ≠ Json.null)
    ∧ parseEditor doc sect none = some Json.null
    ∧ (∀ st b, st.doc = some doc → st.prevSection = some sect → st.form = some fs →
        (sectionSelectChange st b).doc
          = some (objSet doc sect (parseEditor doc sect (some fs)))) := by
  have hcases : sect = "summary" ∨ sect = "contact" ∨ sect = "skills" ∨
      sect = "experience" ∨ sect = "projects" ∨ sect = "leadership" := by
    simpa using hknown
  have hparse : ∃ v, parseEditor doc sect (some fs) = some v ∧ v ≠ Json.null := by
    rcases hcases with rfl | rfl | rfl | rfl | rfl | rfl
    · exact ⟨_, rfl, fun h => Json.noConfusion h⟩
    · exact ⟨_, rfl, fun h => Json.noConfusion h⟩
    · exact ⟨_, rfl, fun h => Json.noConfusion h⟩
    · exact ⟨_, rfl, fun h => Json.noConfusion h⟩
    · exact ⟨_, rfl, fun h => Json.noConfusion h⟩
    · exact ⟨_, rfl, fun h => Json.noConfusion h⟩
  refine ⟨hparse, rfl, ?_⟩
  intro st b hdoc hprev hform
  obtain ⟨v, hv, hvnull⟩ := hparse
  have hne : sect ≠ "" := by
    rcases hcases with rfl | rfl | rfl | rfl | rfl | rfl <;> decide
  have hns : isNullSentinel (parseEditor doc sect (some fs)) = false := by
    rw [hv]
    cases v with
    | null => exact absurd rfl hvnull
    | bool b => rfl
    | num n => rfl
    | str s => rfl
    | arr l => rfl
    | obj m => rfl
  simp [sectionSelectChange, hdoc, hprev, hne, hform, hns]

/-- C10 (witness): the known-section theorem applied to `summary` with a
present (contact-shaped, i.e. arbitrary) form: the result is non-null and
navigation overwrites the section. -/
theorem c10_known_section_parse_nonnull_witness :
    ("summary" ∈ ["summary", "contact", "skills", "experience", "projects", "leadership"])
    ∧ parseEditor [] "summary" (some (FormState.summaryForm "txt")) ≠ some Json.null
    ∧ parseEditor [] "summary" none = some Json.null := by
  have h := c10_known_section_parse_nonnull [] "summary"
    (FormState.summaryForm "txt") (by decide)
  obtain ⟨⟨v, hv, hvn⟩, hnone, _⟩ := h
  refine ⟨by decide, ?_, hnone⟩
  rw [hv]
  intro hh
  exact hvn (Option.some.inj hh)

end ResumeEditor
